import Mathlib

/-!
Verification of the deepKNet diffraction-to-point-cloud materialization
pipeline, shallowly embedded from the repository sources:

* `data_gen/compute_xrd.py` — batch dispatcher: `np.array_split` chunking,
  worker fan-out/fan-in via `pool.starmap` + `pd.concat`, incremental CSV
  writes (header in overwrite mode, data rows appended per macro-chunk).
* `gen_data/gen_training.py` — point-cloud feature encoder and integrity
  guard: per-row duplicate check against the features directory, feature
  assembly, per-material normalization, shape asserts, artifact writes.
* `main.py` — the `Normalizer` used by the downstream training loop.

Machine floats are modelled as rationals (ℚ); pandas `NaN` cells arising
from jagged rows are modelled as `none : Option ℚ`.  Process-level
parallelism (`pool.starmap`) is modelled by its documented deterministic
semantics: results are recombined in argument-submission order, so the
fan-out/fan-in is a pure function of the chunk list.
-/

set_option maxRecDepth 40000

namespace DeepKNet

/-! ## numpy `array_split` semantics

`np.array_split(xs, n)` for `n ≥ 1` splits `xs` into `n` contiguous
chunks: the first `len % n` chunks have size `len / n + 1`, the remaining
ones size `len / n`.  For `n = 0` numpy raises
`ValueError: number sections must be larger than 0`; the fallible wrapper
`arraySplitE` models that error path. -/

def splitSizes (n len : ℕ) : List ℕ :=
  List.replicate (len % n) (len / n + 1) ++ List.replicate (n - len % n) (len / n)

def takeDropChunks {α : Type} : List ℕ → List α → List (List α)
  | [], _ => []
  | s :: ss, xs => xs.take s :: takeDropChunks ss (xs.drop s)

def arraySplit {α : Type} (n : ℕ) (xs : List α) : List (List α) :=
  takeDropChunks (splitSizes n xs.length) xs

def arraySplitE {α : Type} (n : ℕ) (xs : List α) : Except String (List (List α)) :=
  if n = 0 then .error "number sections must be larger than 0"
  else .ok (arraySplit n xs)

/-! ## `compute_xrd.py` data model

One row of `raw_data/custom_MPdata.csv`, and one output row of the
intermediate pattern-level artifact.  The external simulator call
(`xrd_simulator.get_pattern` on the parsed cif, returning the reciprocal
lattice and the reflection feature list) is out of scope per the spec; it
is abstracted as a function `sim : String → P` from the cif string to an
opaque payload standing for the `(recip_latt, features)` pair. -/

structure MPRow where
  material_id : String
  cif : String
  band_gap : ℚ
  energy_per_atom : ℚ
  formation_energy_per_atom : ℚ
  e_above_hull : ℚ
  deriving Repr, DecidableEq

structure XrdOutRow (P : Type) where
  material_id : String
  pattern : P
  band_gap : ℚ
  energy_per_atom : ℚ
  formation_energy_per_atom : ℚ
  e_above_hull : ℚ
  deriving Repr, DecidableEq

/-- `compute_xrd(raw_data, wavelength)`: row-order-preserving map over the
micro-chunk, one simulator call per record. -/
def computeXrd {P : Type} (sim : String → P) (rows : List MPRow) : List (XrdOutRow P) :=
  rows.map fun r =>
    { material_id := r.material_id
      pattern := sim r.cif
      band_gap := r.band_gap
      energy_per_atom := r.energy_per_atom
      formation_energy_per_atom := r.formation_energy_per_atom
      e_above_hull := r.e_above_hull }

/-- `parallel_computing(df_in, wavelength, nworkers)`: `np.array_split` into
`nworkers` micro-chunks, `pool.starmap` (results in argument order), then
`pd.concat(axis=0)`. -/
def parallelComputing {P : Type} (sim : String → P) (nworkers : ℕ) (rows : List MPRow) :
    Except String (List (XrdOutRow P)) :=
  (arraySplitE nworkers rows).map fun chunks => (chunks.map (computeXrd sim)).flatten

/-- The macro-chunk loop of `main`: split into `nSlices` macro-chunks, run
`parallel_computing` on each in order, concatenating all flushed outputs. -/
def pipelineOutput {P : Type} (sim : String → P) (nSlices nworkers : ℕ) (rows : List MPRow) :
    Except String (List (XrdOutRow P)) :=
  (arraySplitE nSlices rows).bind fun macros =>
    (macros.mapM (parallelComputing sim nworkers)).map List.flatten

/-- `nworkers = max(multiprocessing.cpu_count()-2, 1)` (line 79). -/
def nworkersOf (cpu : ℕ) : ℕ := max (cpu - 2) 1

/-- `n_slices = MP_data.shape[0] // (20*nworkers)` (line 80); note: no
clamping to 1. -/
def nSlicesOf (nrecords nworkers : ℕ) : ℕ := nrecords / (20 * nworkers)

/-! ## Incremental CSV file model for the intermediate artifact

`main` writes the header row with `mode='w'` exactly once, then appends the
data rows of each completed macro-chunk with `mode='a'`. -/

inductive CsvLine (P : Type) where
  | headerLine : CsvLine P
  | dataLine : XrdOutRow P → CsvLine P
  deriving DecidableEq

/-- File contents after the header write (`df.to_csv(..., mode='w')`,
line 75): a single header row, regardless of any prior file contents. -/
def initFile (P : Type) : List (CsvLine P) := [CsvLine.headerLine]

/-- One `xrd_data.to_csv(..., header=None, mode='a')` flush (line 89):
append the macro-chunk's result rows as data lines. -/
def flushChunk {P : Type} (file : List (CsvLine P)) (results : List (XrdOutRow P)) :
    List (CsvLine P) :=
  file ++ results.map CsvLine.dataLine

/-- File contents after flushing the given sequence of macro-chunk results
in order. -/
def fileAfter {P : Type} (results : List (List (XrdOutRow P))) : List (CsvLine P) :=
  results.foldl flushChunk (initFile P)

/-- The `main` entry of `compute_xrd.py`, starting from an optional
pre-existing output file: warn iff the file exists (line 70-71), overwrite
it with the header unconditionally (line 75), then compute and flush every
macro-chunk.  Returns the warning flag and the final file contents. -/
def computeXrdMain {P : Type} (sim : String → P) (cpu : ℕ)
    (priorFile : Option (List (CsvLine P))) (records : List MPRow) :
    Bool × Except String (List (CsvLine P)) :=
  let warned := priorFile.isSome
  let nworkers := nworkersOf cpu
  let nSlices := nSlicesOf records.length nworkers
  (warned,
    (arraySplitE nSlices records).map fun chunks =>
      chunks.foldl
        (fun file chunk =>
          match parallelComputing sim nworkers chunk with
          | .ok res => flushChunk file res
          | .error _ => file)
        (initFile P))

/-! ## `main.py` `Normalizer`

`norm` and `denorm` are elementwise tensor operations; they are modelled on
a single scalar entry. -/

structure Normalizer where
  mean : ℚ
  std : ℚ
  deriving Repr, DecidableEq

def Normalizer.norm (nz : Normalizer) (t : ℚ) : ℚ := (t - nz.mean) / nz.std

def Normalizer.denorm (nz : Normalizer) (t : ℚ) : ℚ := t + nz.std + nz.mean

/-! ## `gen_training.py` feature encoder and integrity guard

One row of the intermediate `compute_xrd.csv` as consumed by
`generate_point_cloud`, with the serialized list fields already decoded
(`ast.literal_eval` string decoding, whose failure is the spec's
`ParseError`, is not modelled: rows arrive well-typed).  Python `float`
arithmetic is modelled on ℚ. -/

structure XrdRow where
  material_id : String
  hkl : List (List ℤ)
  recip_xyz : List (List ℚ)
  recip_spherical : List (List ℚ)
  i_hkl_lorentz : List ℚ
  atomic_form_factor : List (List ℚ)
  max_r : ℚ
  band_gap : ℚ
  energy_per_atom : ℚ
  formation_energy_per_atom : ℚ
  deriving Repr, DecidableEq

/-- Python `max` over a list of numbers: left fold keeping the first
maximal element; `ValueError` (here `none`) on an empty sequence. -/
def pyMax (l : List ℚ) : Option ℚ :=
  match l with
  | [] => none
  | x :: xs => some (xs.foldl (fun a b => if a < b then b else a) x)

/-- Python `<` on lists of numbers: lexicographic, a strict prefix is
smaller. -/
def pyListLtB : List ℚ → List ℚ → Bool
  | [], [] => false
  | [], _ :: _ => true
  | _ :: _, [] => false
  | a :: xs, b :: ys => if a < b then true else if b < a then false else pyListLtB xs ys

/-- Python `max` over a list of lists: left fold under the lexicographic
order, keeping the first maximal element; `none` on an empty sequence. -/
def pyMaxRow (ls : List (List ℚ)) : Option (List ℚ) :=
  match ls with
  | [] => none
  | x :: xs => some (xs.foldl (fun a b => if pyListLtB a b then b else a) x)

/-- `max(max(atomic_form_factor))` (line 43): the largest entry of the
lexicographically greatest form-factor row — in general NOT the largest
entry of the whole pattern. -/
def maxMaxAff (aff : List (List ℚ)) : Option ℚ :=
  (pyMaxRow aff).bind pyMax

/-- The spec's words for comparison: "the maximum form-factor value
observed over all entries of all reflections of that material's pattern". -/
def globalMaxFF (aff : List (List ℚ)) : Option ℚ :=
  pyMax aff.flatten

/-- `[recip_spherical[i]+atomic_form_factor[i] for i in range(len(hkl))]`
(line 39); `none` models the `IndexError` raised when either list is
shorter than `hkl`. -/
def buildFeatures (n : ℕ) (sph aff : List (List ℚ)) : Option (List (List ℚ)) :=
  (List.range n).mapM fun i =>
    match sph[i]?, aff[i]? with
    | some s, some a => some (s ++ a)
    | _, _ => none

/-- Column count of `pd.DataFrame(rows)`: the maximum row length (0 for no
rows). -/
def dfWidth (rows : List (List ℚ)) : ℕ :=
  rows.foldr (fun r w => max r.length w) 0

/-- `pd.DataFrame(rows)` cell grid: rows padded to the frame width with
`NaN` (modelled as `none`). -/
def padRows (w : ℕ) (rows : List (List ℚ)) : List (List (Option ℚ)) :=
  rows.map fun r => r.map some ++ List.replicate (w - r.length) none

/-- `features.iloc[:, 0] = features.iloc[:, 0] / max_r` (line 42), on one
padded row: divide the first cell. -/
def divCol0Row (m : ℚ) : List (Option ℚ) → List (Option ℚ)
  | [] => []
  | c :: rest => c.map (· / m) :: rest

def divCol0 (m : ℚ) (rows : List (List (Option ℚ))) : List (List (Option ℚ)) :=
  rows.map (divCol0Row m)

/-- `features.iloc[:, 3:-1] = features.iloc[:, 3:-1] / d` (line 43), on one
padded row of a width-`w` frame: divide the cells at column positions
`3 ≤ j` and `j + 1 < w`. -/
def divSliceRow (w : ℕ) (d : ℚ) : ℕ → List (Option ℚ) → List (Option ℚ)
  | _, [] => []
  | j, c :: rest =>
      (if 3 ≤ j ∧ j + 1 < w then c.map (· / d) else c) :: divSliceRow w d (j + 1) rest

def divSlice (w : ℕ) (d : ℚ) (rows : List (List (Option ℚ))) : List (List (Option ℚ)) :=
  rows.map (divSliceRow w d 0)

/-- `features.transpose()` (line 45) of an `n × w` frame: the `w × n` grid
of columns. -/
def matTranspose (w : ℕ) (rows : List (List (Option ℚ))) : List (List (Option ℚ)) :=
  (List.range w).map fun j => rows.map fun r => r.getD j none

abbrev Tensor := List (List (Option ℚ))

/-- Cell of the transposed feature tensor: channel `j`, point `i`. -/
def cell (t : Tensor) (j i : ℕ) : Option ℚ :=
  (t.getD j []).getD i none

/-- The fatal error outcomes of one `generate_point_cloud` iteration.
`duplicateMaterialId` models the lines 27-29 abort (the code's intended
`sys.exit(1)`; `sys` is in fact not imported, so a `NameError` is raised
instead — either way the iteration aborts fatally without writing);
`indexError` models the Python `IndexError` from out-of-range list or
`iloc` indexing; `valueError` the `max()` of an empty sequence;
`shapeError` the failed shape `assert`s of lines 46-47. -/
inductive GenError where
  | duplicateMaterialId
  | indexError
  | valueError
  | shapeError
  deriving Repr, DecidableEq

/-- The two output directories, as association lists from filename to the
written artifact; a `to_csv` write prepends, so `List.lookup` returns the
most recently written content, as the filesystem would. -/
structure OutState where
  featuresDir : List (String × Tensor)
  targetDir : List (String × List ℚ)
  deriving DecidableEq

def emptyState : OutState := ⟨[], []⟩

def filenameOf (row : XrdRow) : String := row.material_id ++ ".csv"

/-- One iteration of the `generate_point_cloud` loop (lines 23-59), in
source order: duplicate check against the features directory only, feature
assembly, frame construction, radial and form-factor normalization,
transpose, shape asserts, then the features write followed by the target
write. -/
def processRow (st : OutState) (row : XrdRow) : Except GenError OutState :=
  if (st.featuresDir.lookup (filenameOf row)).isSome then
    .error .duplicateMaterialId
  else
    match buildFeatures row.hkl.length row.recip_spherical row.atomic_form_factor with
    | none => .error .indexError
    | some featRows =>
      if dfWidth featRows = 0 then
        .error .indexError
      else
        match maxMaxAff row.atomic_form_factor with
        | none => .error .valueError
        | some d =>
          if (matTranspose (dfWidth featRows) (divSlice (dfWidth featRows) d
              (divCol0 row.max_r (padRows (dfWidth featRows) featRows)))).length ≠ 3 + 94 then
            .error .shapeError
          else if featRows.length ≠ 512 then
            .error .shapeError
          else
            .ok { featuresDir := (filenameOf row,
                    matTranspose (dfWidth featRows) (divSlice (dfWidth featRows) d
                      (divCol0 row.max_r (padRows (dfWidth featRows) featRows)))) ::
                      st.featuresDir
                  targetDir :=
                    (filenameOf row, [row.band_gap, row.energy_per_atom,
                                row.formation_energy_per_atom]) :: st.targetDir }

/-- The whole `generate_point_cloud` loop over its chunk: on the first
fatal error the run aborts — the directories stay as they were at the
error and the remaining rows are not processed. -/
def runRows (st : OutState) : List XrdRow → OutState × Option GenError
  | [] => (st, none)
  | r :: rs =>
    match processRow st r with
    | .error e => (st, some e)
    | .ok st2 => runRows st2 rs

/-- States reachable in an actual run: `main` empties both directories
before processing, and every successful iteration writes the features
artifact before the target artifact, so every id present in the target
directory is also present in the features directory. -/
def stateInv (st : OutState) : Prop :=
  ∀ f, (st.targetDir.lookup f).isSome → (st.featuresDir.lookup f).isSome

/-- The divisor actually used on line 43, as a total function (only
meaningful when `maxMaxAff` succeeds). -/
def divisorOf (row : XrdRow) : ℚ := (maxMaxAff row.atomic_form_factor).getD 0

/-! ## Well-formed rows and the explicit encoding -/

/-- A row whose decoded pattern fields are mutually consistent and use the
advertised per-reflection layout: 3 spherical components and 94 form-factor
entries per reflection. -/
def WFRow (row : XrdRow) : Prop :=
  row.recip_spherical.length = row.hkl.length ∧
  row.atomic_form_factor.length = row.hkl.length ∧
  (∀ s ∈ row.recip_spherical, s.length = 3) ∧
  (∀ a ∈ row.atomic_form_factor, a.length = 94)

/-- The per-reflection feature rows of line 39, for consistent lists. -/
def featRowsOf (row : XrdRow) : List (List ℚ) :=
  List.zipWith (· ++ ·) row.recip_spherical row.atomic_form_factor

/-- The encoded (normalized, transposed) feature tensor that
`generate_point_cloud` writes for a well-formed 512-reflection row. -/
def tensorOf (row : XrdRow) : Tensor :=
  matTranspose 97 (divSlice 97 (divisorOf row) (divCol0 row.max_r
    ((featRowsOf row).map (fun r => r.map some))))

/-! ## Concrete rows for counterexamples and witnesses -/

/-- A family of syntactically well-formed 512-reflection rows: 512 unit
radial reflections, with form-factor row `a0` for the first reflection and
`a1` for the remaining 511. -/
def canonRow (id : String) (a0 a1 : List ℚ) : XrdRow :=
  { material_id := id
    hkl := List.replicate 512 [0, 0, 0]
    recip_xyz := []
    recip_spherical := List.replicate 512 [1, 0, 0]
    i_hkl_lorentz := []
    atomic_form_factor := a0 :: List.replicate 511 a1
    max_r := 1
    band_gap := 0
    energy_per_atom := 0
    formation_energy_per_atom := 0 }

/-- First form-factor row of the counterexample material: lexicographically
the greatest (leading 3), maximum entry 3, last entry 2. -/
def affCexA : List ℚ := 3 :: (List.replicate 92 0 ++ [2])

/-- Remaining form-factor rows of the counterexample material: second entry
5 is the pattern-wide maximum but lives in a lexicographically smaller
row. -/
def affCexB : List ℚ := 1 :: 5 :: List.replicate 92 0

def rowCex : XrdRow := canonRow "m-cex" affCexA affCexB

/-- A benign uniform form-factor row (entries 2, 1, …, 1). -/
def affW : List ℚ := 2 :: List.replicate 93 1

def rowW1 : XrdRow := canonRow "m-w1" affW affW
def rowW3 : XrdRow := canonRow "m-w3" affW affW
def rowW4 : XrdRow := canonRow "m-w4" affW affW
def rowW9 : XrdRow := canonRow "m-w9" affW affW
def rowDup : XrdRow := canonRow "m-dup" affW affW

/-- A consistent single-reflection row (1 reflection ≠ 512). -/
def rowSmall : XrdRow :=
  { material_id := "m-small"
    hkl := [[0, 0, 0]]
    recip_xyz := []
    recip_spherical := [[1, 0, 0]]
    i_hkl_lorentz := []
    atomic_form_factor := [List.replicate 94 1]
    max_r := 1
    band_gap := 0
    energy_per_atom := 0
    formation_energy_per_atom := 0 }

/-- A zero-reflection row. -/
def rowEmpty : XrdRow :=
  { material_id := "m-empty"
    hkl := []
    recip_xyz := []
    recip_spherical := []
    i_hkl_lorentz := []
    atomic_form_factor := []
    max_r := 1
    band_gap := 0
    energy_per_atom := 0
    formation_energy_per_atom := 0 }

def dupTensor : Tensor := [[some 1]]

/-- A state that already holds a features artifact for `rowDup`. -/
def dupState : OutState := ⟨[(filenameOf rowDup, dupTensor)], []⟩

/-- A state that holds a target artifact but no features artifact for
`rowW9`. -/
def tgtState : OutState := ⟨[], [(filenameOf rowW9, [9, 9, 9])]⟩

/-! ## The contested claims, as stated -/

/-- Claim C1 as stated: every produced sample is 97 × 512, and a pattern
with fewer or more than 512 reflections fails with the shape error (for a
fresh id). -/
def c1Stated : Prop :=
  (∀ (st : OutState) (row : XrdRow) (st2 : OutState),
    processRow st row = .ok st2 →
    ∃ t, st2.featuresDir.lookup (filenameOf row) = some t ∧
      t.length = 97 ∧ ∀ c ∈ t, c.length = 512) ∧
  (∀ (st : OutState) (row : XrdRow),
    st.featuresDir.lookup (filenameOf row) = none →
    row.hkl.length ≠ 512 →
    processRow st row = .error .shapeError)

/-- Claim C3 as stated: every form-factor channel (3..96) of every
produced sample is the raw entry divided by the pattern-wide maximum
form-factor value. -/
def c3Stated : Prop :=
  ∀ (st : OutState) (row : XrdRow) (st2 : OutState) (t : Tensor) (g : ℚ),
    processRow st row = .ok st2 →
    st2.featuresDir.lookup (filenameOf row) = some t →
    globalMaxFF row.atomic_form_factor = some g →
    ∀ i, i < 512 → ∀ j, 3 ≤ j → j ≤ 96 →
      cell t j i = some ((row.atomic_form_factor.getD i []).getD (j - 3) 0 / g)

/-- Claim C4 as stated: with non-zero `max_r` and a non-zero pattern-wide
maximum form-factor value, radial values lie in (0, 1] and every
form-factor channel value lies in [0, 1]. -/
def c4Stated : Prop :=
  ∀ (st : OutState) (row : XrdRow) (st2 : OutState) (t : Tensor),
    processRow st row = .ok st2 →
    st2.featuresDir.lookup (filenameOf row) = some t →
    row.max_r ≠ 0 →
    (∀ g, globalMaxFF row.atomic_form_factor = some g → g ≠ 0) →
    (∀ i, i < 512 → ∃ v, cell t 0 i = some v ∧ 0 < v ∧ v ≤ 1) ∧
    (∀ i, i < 512 → ∀ j, 3 ≤ j → j ≤ 96 → ∃ v, cell t j i = some v ∧ 0 ≤ v ∧ v ≤ 1)

def mpRow0 : MPRow :=
  { material_id := "mp-0", cif := "", band_gap := 0, energy_per_atom := 0,
    formation_energy_per_atom := 0, e_above_hull := 0 }

def mpRowOf (n : ℕ) : MPRow := { mpRow0 with material_id := "mp-" ++ toString n }

/-- The claim C6 as stated: worker count and slice count both clamped to
≥ 1, and macro-chunk splitting never fails with an invalid-section-count
error. -/
def c6Stated : Prop :=
  ∀ (cpu : ℕ) (rows : List MPRow),
    1 ≤ nworkersOf cpu ∧
    1 ≤ nSlicesOf rows.length (nworkersOf cpu) ∧
    ∃ chunks, arraySplitE (nSlicesOf rows.length (nworkersOf cpu)) rows = .ok chunks


def xrdOutW : XrdOutRow Unit :=
  { material_id := "mp-w7", pattern := (), band_gap := 0, energy_per_atom := 0,
    formation_energy_per_atom := 0, e_above_hull := 0 }
/-! ## Theorems -/


theorem sum_splitSizes (n len : ℕ) : (splitSizes n len).sum = len := by
  rcases Nat.eq_zero_or_pos n with hn | hn
  · subst hn
    simp [splitSizes, List.sum_replicate, smul_eq_mul]
  · have hr : len % n < n := Nat.mod_lt _ hn
    have hkey : n * (len / n) + len % n = len := Nat.div_add_mod len n
    simp only [splitSizes, List.sum_append, List.sum_replicate, smul_eq_mul]
    have hle : (len % n) * (len / n) ≤ n * (len / n) :=
      Nat.mul_le_mul_right _ (Nat.le_of_lt hr)
    have hsub : (n - len % n) * (len / n) = n * (len / n) - (len % n) * (len / n) :=
      Nat.sub_mul _ _ _
    rw [hsub, Nat.mul_add, Nat.mul_one]
    omega

theorem takeDropChunks_join {α : Type} :
    ∀ (ss : List ℕ) (xs : List α), (takeDropChunks ss xs).flatten = xs.take ss.sum
  | [], xs => by simp [takeDropChunks]
  | s :: ss, xs => by
    simp only [takeDropChunks, List.flatten_cons, takeDropChunks_join ss (xs.drop s),
      List.sum_cons]
    rw [List.take_add]

theorem arraySplit_join {α : Type} (n : ℕ) (xs : List α) :
    (arraySplit n xs).flatten = xs := by
  rw [arraySplit, takeDropChunks_join, sum_splitSizes, List.take_length]

/-! ## Encoder structural lemmas -/

/-- A fold whose step always returns one of its two arguments yields an
element of the fold's inputs. -/
theorem foldl_choice {α : Type} (g : α → α → α) (hg : ∀ x y, g x y = x ∨ g x y = y) :
    ∀ (l : List α) (a : α), l.foldl g a ∈ a :: l
  | [], a => List.mem_cons_self a []
  | b :: l, a => by
    rcases List.mem_cons.mp (foldl_choice g hg l (g a b)) with h | h
    · rcases hg a b with hab | hab
      · rw [List.foldl_cons, h, hab]; exact List.mem_cons_self _ _
      · rw [List.foldl_cons, h, hab]
        exact List.mem_cons_of_mem _ (List.mem_cons_self _ _)
    · exact List.mem_cons_of_mem _ (List.mem_cons_of_mem _ h)

theorem foldl_fix {α β : Type} (g : α → β → α) (a : α) (b : β) (hfix : g a b = a) :
    ∀ n, (List.replicate n b).foldl g a = a
  | 0 => rfl
  | n + 1 => by rw [List.replicate_succ, List.foldl_cons, hfix, foldl_fix g a b hfix n]

theorem pyMax_isSome {l : List ℚ} (h : l ≠ []) : (pyMax l).isSome := by
  cases l with
  | nil => exact absurd rfl h
  | cons x xs => rfl

theorem pyMaxRow_mem {ls : List (List ℚ)} {r : List ℚ} (h : pyMaxRow ls = some r) :
    r ∈ ls := by
  cases ls with
  | nil => exact Option.noConfusion h
  | cons x xs =>
    have hmem := foldl_choice (fun a b => if pyListLtB a b then b else a)
      (fun x y => by by_cases h : pyListLtB x y <;> simp [h]) xs x
    rw [pyMaxRow] at h
    rw [← Option.some.inj h]
    exact hmem

theorem maxMaxAff_isSome {aff : List (List ℚ)} (hne : aff ≠ [])
    (hrows : ∀ a ∈ aff, a ≠ []) : (maxMaxAff aff).isSome := by
  rw [maxMaxAff]
  cases hrow : pyMaxRow aff with
  | none => cases aff with
    | nil => exact absurd rfl hne
    | cons x xs => exact Option.noConfusion hrow
  | some r => exact pyMax_isSome (hrows r (pyMaxRow_mem hrow))

theorem maxMaxAff_eq_divisorOf {row : XrdRow} (h : (maxMaxAff row.atomic_form_factor).isSome) :
    maxMaxAff row.atomic_form_factor = some (divisorOf row) := by
  rw [divisorOf]
  cases hm : maxMaxAff row.atomic_form_factor with
  | none => rw [hm] at h; exact Bool.noConfusion h
  | some d => rfl

theorem buildFeatures_take (sph aff : List (List ℚ)) :
    ∀ n, n ≤ sph.length → n ≤ aff.length →
      buildFeatures n sph aff = some (List.zipWith (· ++ ·) (sph.take n) (aff.take n))
  | 0, _, _ => rfl
  | n + 1, h1, h2 => by
    have h1n : n < sph.length := h1
    have h2n : n < aff.length := h2
    rw [buildFeatures, List.range_succ, List.mapM_append]
    have hprev := buildFeatures_take sph aff n (Nat.le_of_lt h1n) (Nat.le_of_lt h2n)
    rw [buildFeatures] at hprev
    rw [hprev]
    have hlast :
        List.mapM (fun i =>
          match sph[i]?, aff[i]? with
          | some s, some a => some (s ++ a)
          | _, _ => none) [n] = some [sph[n] ++ aff[n]] := by
      have e1 : sph[n]? = some sph[n] := List.getElem?_eq_getElem h1n
      have e2 : aff[n]? = some aff[n] := List.getElem?_eq_getElem h2n
      simp [List.mapM, List.mapM.loop, e1, e2]
    rw [hlast]
    have htk1 : sph.take (n + 1) = sph.take n ++ [sph[n]] := by
      rw [List.take_succ, List.getElem?_eq_getElem h1n]; rfl
    have htk2 : aff.take (n + 1) = aff.take n ++ [aff[n]] := by
      rw [List.take_succ, List.getElem?_eq_getElem h2n]; rfl
    have hlen : (sph.take n).length = (aff.take n).length := by
      rw [List.length_take, List.length_take]
      omega
    rw [htk1, htk2, List.zipWith_append _ _ _ _ _ hlen]
    rfl

theorem buildFeatures_eq {sph aff : List (List ℚ)} {n : ℕ}
    (h1 : sph.length = n) (h2 : aff.length = n) :
    buildFeatures n sph aff = some (List.zipWith (· ++ ·) sph aff) := by
  have := buildFeatures_take sph aff n (le_of_eq h1.symm) (le_of_eq h2.symm)
  rwa [← h1, List.take_length, h1, ← h2, List.take_length, h2] at this

theorem mem_zipWith {α β γ : Type} {f : α → β → γ} :
    ∀ {l1 : List α} {l2 : List β} {c : γ},
      c ∈ List.zipWith f l1 l2 → ∃ a ∈ l1, ∃ b ∈ l2, c = f a b
  | [], _, c => by simp
  | _ :: _, [], c => by simp
  | a :: l1, b :: l2, c => by
    intro hc
    rcases List.mem_cons.mp hc with h | h
    · exact ⟨a, List.mem_cons_self _ _, b, List.mem_cons_self _ _, h⟩
    · obtain ⟨x, hx, y, hy, hxy⟩ := mem_zipWith h
      exact ⟨x, List.mem_cons_of_mem _ hx, y, List.mem_cons_of_mem _ hy, hxy⟩

theorem dfWidth_uniform {w : ℕ} :
    ∀ {rows : List (List ℚ)}, (∀ r ∈ rows, r.length = w) → rows ≠ [] →
      dfWidth rows = w
  | [], _, hne => absurd rfl hne
  | r :: rows, h, _ => by
    rw [dfWidth, List.foldr_cons]
    rcases eq_or_ne rows [] with hr | hr
    · subst hr
      simp [dfWidth, h r (List.mem_cons_self _ _)]
    · have := dfWidth_uniform (fun x hx => h x (List.mem_cons_of_mem _ hx)) hr
      rw [dfWidth] at this
      rw [this, h r (List.mem_cons_self _ _), max_self]

theorem padRows_uniform {w : ℕ} {rows : List (List ℚ)}
    (h : ∀ r ∈ rows, r.length = w) :
    padRows w rows = rows.map (fun r => r.map some) := by
  refine List.map_congr_left fun r hr => ?_
  rw [h r hr, Nat.sub_self, List.replicate_zero, List.append_nil]

theorem matTranspose_length (w : ℕ) (rows : List (List (Option ℚ))) :
    (matTranspose w rows).length = w := by
  simp [matTranspose]

theorem featRowsOf_mem_length {row : XrdRow} (hwf : WFRow row) :
    ∀ r ∈ featRowsOf row, r.length = 97 := by
  intro r hr
  obtain ⟨s, hs, a, ha, rfl⟩ := mem_zipWith hr
  rw [List.length_append, hwf.2.2.1 s hs, hwf.2.2.2 a ha]

theorem featRowsOf_length {row : XrdRow} (hwf : WFRow row) :
    (featRowsOf row).length = row.hkl.length := by
  rw [featRowsOf, List.length_zipWith, hwf.1, hwf.2.1, min_self]

theorem maxMaxAff_wf {row : XrdRow} (hwf : WFRow row) (hpos : 1 ≤ row.hkl.length) :
    maxMaxAff row.atomic_form_factor = some (divisorOf row) := by
  refine maxMaxAff_eq_divisorOf (maxMaxAff_isSome ?_ ?_)
  · intro h
    have h21 := hwf.2.1
    rw [h] at h21
    simp at h21
    omega
  · intro a ha hnil
    have := hwf.2.2.2 a ha
    rw [hnil] at this
    exact absurd this (by decide)

/-- Evaluation of one `generate_point_cloud` iteration on a well-formed
512-reflection row whose id is not yet in the features directory: the
features artifact (the 97 × 512 tensor) and the target artifact are
written, features first. -/
theorem processRow_wf (st : OutState) (row : XrdRow)
    (hdup : st.featuresDir.lookup (filenameOf row) = none)
    (hwf : WFRow row) (hn : row.hkl.length = 512) :
    processRow st row = .ok
      { featuresDir := (filenameOf row, tensorOf row) :: st.featuresDir
        targetDir := (filenameOf row,
          [row.band_gap, row.energy_per_atom,
            row.formation_energy_per_atom]) :: st.targetDir } := by
  have hbf : buildFeatures row.hkl.length row.recip_spherical row.atomic_form_factor =
      some (featRowsOf row) := buildFeatures_eq hwf.1 hwf.2.1
  have hlen : (featRowsOf row).length = 512 := by rw [featRowsOf_length hwf, hn]
  have hne : featRowsOf row ≠ [] := by
    intro h
    rw [h] at hlen
    exact absurd hlen (by decide)
  have hw : dfWidth (featRowsOf row) = 97 := dfWidth_uniform (featRowsOf_mem_length hwf) hne
  have hpad : padRows 97 (featRowsOf row) = (featRowsOf row).map (fun r => r.map some) :=
    padRows_uniform (featRowsOf_mem_length hwf)
  have hmm : maxMaxAff row.atomic_form_factor = some (divisorOf row) :=
    maxMaxAff_wf hwf (by omega)
  simp only [processRow, hbf, hdup, Option.isSome_none, Bool.false_eq_true, if_false,
    hw, hpad, hmm, matTranspose_length, hlen]
  rfl

/-- Any successfully produced sample carries a features artifact of exactly
97 channels by 512 points (the shape asserts of lines 46-47 have passed). -/
theorem processRow_ok_shape {st : OutState} {row : XrdRow} {st2 : OutState}
    (h : processRow st row = .ok st2) :
    ∃ t, st2.featuresDir.lookup (filenameOf row) = some t ∧ t.length = 97 ∧
      ∀ c ∈ t, c.length = 512 := by
  by_cases hdup : (List.lookup (filenameOf row) st.featuresDir).isSome
  · unfold processRow at h
    rw [if_pos hdup] at h
    exact Except.noConfusion h
  unfold processRow at h
  rw [if_neg hdup] at h
  split at h
  · exact Except.noConfusion h
  split at h
  · exact Except.noConfusion h
  split at h
  · exact Except.noConfusion h
  split at h
  · exact Except.noConfusion h
  split at h
  · exact Except.noConfusion h
  rename_i o1 fr hbf hw0 o2 d hmm hT hN
  have hst := (Except.ok.inj h).symm
  subst hst
  refine ⟨matTranspose (dfWidth fr)
    (divSlice (dfWidth fr) d (divCol0 row.max_r (padRows (dfWidth fr) fr))), ?_, ?_, ?_⟩
  · rw [List.lookup_cons]
    simp
  · rw [matTranspose_length] at hT ⊢
    omega
  · intro c hc
    rw [matTranspose] at hc
    obtain ⟨j, _, rfl⟩ := List.mem_map.mp hc
    simp only [List.length_map, divSlice, divCol0, padRows]
    omega

/-- A well-formed pattern with at least one reflection but not exactly 512
of them passes every earlier stage and dies at the shape asserts. -/
theorem processRow_shapeError (st : OutState) (row : XrdRow)
    (hdup : st.featuresDir.lookup (filenameOf row) = none)
    (hwf : WFRow row) (hpos : 1 ≤ row.hkl.length) (hne512 : row.hkl.length ≠ 512) :
    processRow st row = .error .shapeError := by
  have hbf : buildFeatures row.hkl.length row.recip_spherical row.atomic_form_factor =
      some (featRowsOf row) := buildFeatures_eq hwf.1 hwf.2.1
  have hlen : (featRowsOf row).length = row.hkl.length := featRowsOf_length hwf
  have hne : featRowsOf row ≠ [] := by
    intro h
    rw [h] at hlen
    simp at hlen
    omega
  have hw : dfWidth (featRowsOf row) = 97 := dfWidth_uniform (featRowsOf_mem_length hwf) hne
  have hmm : maxMaxAff row.atomic_form_factor = some (divisorOf row) := maxMaxAff_wf hwf hpos
  simp only [processRow, hbf, hdup, Option.isSome_none, Bool.false_eq_true, if_false,
    hw, hmm, matTranspose_length, hlen]
  simp [hne512]

/-! ## Cell access through the normalization stages -/

theorem getD_map_of_lt {α β : Type} (f : α → β) (l : List α) {i : ℕ} (hi : i < l.length)
    (d1 : β) (d2 : α) : (l.map f).getD i d1 = f (l.getD i d2) := by
  rw [List.getD_eq_getElem?_getD, List.getElem?_map, List.getElem?_eq_getElem hi,
    List.getD_eq_getElem _ _ hi]
  rfl

theorem divCol0Row_getElem (m : ℚ) :
    ∀ (l : List (Option ℚ)) (j : ℕ),
      (divCol0Row m l)[j]? = l[j]?.map fun c => if j = 0 then c.map (· / m) else c
  | [], j => by simp [divCol0Row]
  | c :: rest, 0 => by simp [divCol0Row]
  | c :: rest, j + 1 => by
    rw [divCol0Row]
    simp only [List.getElem?_cons_succ]
    cases rest[j]? <;> simp

theorem divSliceRow_getElem (w : ℕ) (d : ℚ) :
    ∀ (l : List (Option ℚ)) (k j : ℕ),
      (divSliceRow w d k l)[j]? =
        l[j]?.map fun c => if 3 ≤ k + j ∧ k + j + 1 < w then c.map (· / d) else c
  | [], k, j => by simp [divSliceRow]
  | c :: rest, k, 0 => by simp [divSliceRow]
  | c :: rest, k, j + 1 => by
    rw [divSliceRow]
    simp only [List.getElem?_cons_succ]
    rw [divSliceRow_getElem w d rest (k + 1) j]
    have hkj : k + 1 + j = k + (j + 1) := by omega
    rw [hkj]

theorem cell_matTranspose {w : ℕ} {rows : List (List (Option ℚ))} {j i : ℕ}
    (hj : j < w) (hi : i < rows.length) :
    cell (matTranspose w rows) j i = (rows.getD i []).getD j none := by
  have hjr : j < (List.range w).length := by rw [List.length_range]; exact hj
  rw [cell, matTranspose, getD_map_of_lt _ _ hjr _ 0,
    List.getD_eq_getElem _ _ hjr, List.getElem_range,
    getD_map_of_lt _ _ hi _ []]

theorem featRowsOf_getD {row : XrdRow} (hwf : WFRow row) {i : ℕ}
    (hi : i < row.hkl.length) :
    (featRowsOf row).getD i [] =
      row.recip_spherical.getD i [] ++ row.atomic_form_factor.getD i [] := by
  have h1 : i < row.recip_spherical.length := by rw [hwf.1]; exact hi
  have h2 : i < row.atomic_form_factor.length := by rw [hwf.2.1]; exact hi
  rw [featRowsOf, List.getD_eq_getElem?_getD, List.getElem?_zipWith,
    List.getElem?_eq_getElem h1, List.getElem?_eq_getElem h2,
    List.getD_eq_getElem _ _ h1, List.getD_eq_getElem _ _ h2]
  rfl

/-- The generic cell formula for the encoded tensor of a well-formed
512-reflection row: the cell at channel `j`, point `i` is the raw feature
entry at position `j` of reflection `i`, sent through the column-0
division by `max_r` and the columns-3..95 division by the line-43
divisor. -/
theorem tensorOf_cell_base {row : XrdRow} (hwf : WFRow row) (hn : row.hkl.length = 512)
    {i j : ℕ} (hi : i < 512) (hj : j < 97) :
    cell (tensorOf row) j i =
      ((((row.recip_spherical.getD i [] ++
            row.atomic_form_factor.getD i []).map some)[j]?.map
          (fun c => if j = 0 then c.map (· / row.max_r) else c)).map
        (fun c => if 3 ≤ j ∧ j + 1 < 97 then c.map (· / divisorOf row) else c)).getD
        none := by
  have hF : (featRowsOf row).length = 512 := by rw [featRowsOf_length hwf, hn]
  have hi1 : i < ((featRowsOf row).map (fun r => r.map some)).length := by
    rw [List.length_map, hF]; exact hi
  have hi2 : i < (divCol0 row.max_r ((featRowsOf row).map (fun r => r.map some))).length := by
    rw [divCol0, List.length_map]; exact hi1
  have hi3 : i < (divSlice 97 (divisorOf row) (divCol0 row.max_r
      ((featRowsOf row).map (fun r => r.map some)))).length := by
    rw [divSlice, List.length_map]; exact hi2
  rw [tensorOf, cell_matTranspose hj hi3, divSlice,
    getD_map_of_lt _ _ hi2 _ [], divCol0, getD_map_of_lt _ _ hi1 _ [],
    getD_map_of_lt _ _ (by rw [hF]; exact hi) _ [],
    List.getD_eq_getElem?_getD, divSliceRow_getElem, divCol0Row_getElem,
    featRowsOf_getD hwf (by omega)]
  simp only [Nat.zero_add]

theorem getElem?_eq_some_getD {α : Type} (l : List α) (d : α) {i : ℕ} (hi : i < l.length) :
    l[i]? = some (l.getD i d) := by
  rw [List.getElem?_eq_getElem hi, List.getD_eq_getElem _ _ hi]

/-- Radial channel (channel 0): the reflection's first spherical component
divided by `max_r` (line 42). -/
theorem tensorOf_cell_radial {row : XrdRow} (hwf : WFRow row) (hn : row.hkl.length = 512)
    {i : ℕ} (hi : i < 512) :
    cell (tensorOf row) 0 i =
      some ((row.recip_spherical.getD i []).getD 0 0 / row.max_r) := by
  have h1 : i < row.recip_spherical.length := by rw [hwf.1, hn]; exact hi
  have hs : (row.recip_spherical.getD i []).length = 3 :=
    hwf.2.2.1 _ (by rw [List.getD_eq_getElem _ _ h1]; exact List.getElem_mem h1)
  rw [tensorOf_cell_base hwf hn hi (by omega), List.getElem?_map, List.getElem?_append]
  rw [if_pos (show 0 < (row.recip_spherical.getD i []).length by rw [hs]; omega),
    getElem?_eq_some_getD _ 0 (by rw [hs]; omega)]
  simp

/-- Form-factor channels 3..95: the corresponding form-factor entry divided
by the line-43 divisor (the slice `3:-1` of line 43). -/
theorem tensorOf_cell_ff {row : XrdRow} (hwf : WFRow row) (hn : row.hkl.length = 512)
    {i j : ℕ} (hi : i < 512) (hj3 : 3 ≤ j) (hj95 : j ≤ 95) :
    cell (tensorOf row) j i =
      some ((row.atomic_form_factor.getD i []).getD (j - 3) 0 / divisorOf row) := by
  have h1 : i < row.recip_spherical.length := by rw [hwf.1, hn]; exact hi
  have h2 : i < row.atomic_form_factor.length := by rw [hwf.2.1, hn]; exact hi
  have hs : (row.recip_spherical.getD i []).length = 3 :=
    hwf.2.2.1 _ (by rw [List.getD_eq_getElem _ _ h1]; exact List.getElem_mem h1)
  have ha : (row.atomic_form_factor.getD i []).length = 94 :=
    hwf.2.2.2 _ (by rw [List.getD_eq_getElem _ _ h2]; exact List.getElem_mem h2)
  rw [tensorOf_cell_base hwf hn hi (by omega), List.getElem?_map,
    List.getElem?_append_right (by rw [hs]; omega), hs,
    getElem?_eq_some_getD _ 0 (by rw [ha]; omega)]
  have hjne : ¬ j = 0 := by omega
  have hcond : 3 ≤ j ∧ j + 1 < 97 := ⟨hj3, by omega⟩
  simp [hjne, hcond]

/-- The last form-factor channel (channel 96): left undivided by the
`3:-1` slice of line 43. -/
theorem tensorOf_cell_last {row : XrdRow} (hwf : WFRow row) (hn : row.hkl.length = 512)
    {i : ℕ} (hi : i < 512) :
    cell (tensorOf row) 96 i =
      some ((row.atomic_form_factor.getD i []).getD 93 0) := by
  have h1 : i < row.recip_spherical.length := by rw [hwf.1, hn]; exact hi
  have h2 : i < row.atomic_form_factor.length := by rw [hwf.2.1, hn]; exact hi
  have hs : (row.recip_spherical.getD i []).length = 3 :=
    hwf.2.2.1 _ (by rw [List.getD_eq_getElem _ _ h1]; exact List.getElem_mem h1)
  have ha : (row.atomic_form_factor.getD i []).length = 94 :=
    hwf.2.2.2 _ (by rw [List.getD_eq_getElem _ _ h2]; exact List.getElem_mem h2)
  rw [tensorOf_cell_base hwf hn hi (by omega), List.getElem?_map,
    List.getElem?_append_right (by rw [hs]; omega), hs,
    getElem?_eq_some_getD _ 0 (by rw [ha]; omega)]
  simp

/-! ## Integrity-guard lemmas -/

theorem processRow_duplicate {st : OutState} {row : XrdRow}
    (h : (st.featuresDir.lookup (filenameOf row)).isSome) :
    processRow st row = .error .duplicateMaterialId := by
  rw [processRow, if_pos h]

/-- Full inversion of a successful iteration: both directories gain exactly
one artifact, keyed by the row's filename, features and target together. -/
theorem processRow_ok_inv {st : OutState} {row : XrdRow} {st2 : OutState}
    (h : processRow st row = .ok st2) :
    ∃ t, st2 =
      { featuresDir := (filenameOf row, t) :: st.featuresDir
        targetDir := (filenameOf row, [row.band_gap, row.energy_per_atom,
          row.formation_energy_per_atom]) :: st.targetDir } := by
  by_cases hdup : (List.lookup (filenameOf row) st.featuresDir).isSome
  · unfold processRow at h
    rw [if_pos hdup] at h
    exact Except.noConfusion h
  unfold processRow at h
  rw [if_neg hdup] at h
  split at h
  · exact Except.noConfusion h
  split at h
  · exact Except.noConfusion h
  split at h
  · exact Except.noConfusion h
  split at h
  · exact Except.noConfusion h
  split at h
  · exact Except.noConfusion h
  exact ⟨_, (Except.ok.inj h).symm⟩

theorem stateInv_empty : stateInv emptyState := by
  intro f h
  simp [emptyState, List.lookup] at h

/-- Every state reachable by successful iterations keeps the
"target key implies features key" invariant: the features artifact is
written before the target artifact for the same filename. -/
theorem processRow_preserves_stateInv {st : OutState} {row : XrdRow} {st2 : OutState}
    (hinv : stateInv st) (h : processRow st row = .ok st2) : stateInv st2 := by
  obtain ⟨t, rfl⟩ := processRow_ok_inv h
  intro f hf
  rw [List.lookup_cons] at hf ⊢
  cases hbeq : f == filenameOf row
  · simp only [hbeq] at hf ⊢
    exact hinv f hf
  · simp only [hbeq] at hf ⊢
    rfl

/-! ## Dispatcher lemmas -/

theorem mapM_ok_of {ε α β : Type} (f : α → Except ε β) (g : α → β) :
    ∀ l : List α, (∀ a ∈ l, f a = .ok (g a)) → l.mapM f = .ok (l.map g)
  | [], _ => rfl
  | a :: l, h => by
    rw [List.mapM_cons, h a (List.mem_cons_self a l),
      mapM_ok_of f g l fun b hb => h b (List.mem_cons_of_mem _ hb)]
    rfl

theorem computeXrd_flatten {P : Type} (sim : String → P) (L : List (List MPRow)) :
    (L.map (computeXrd sim)).flatten = computeXrd sim L.flatten :=
  (List.map_flatten _ L).symm

theorem parallelComputing_ok {P : Type} (sim : String → P) (W : ℕ) (hW : 1 ≤ W)
    (rows : List MPRow) : parallelComputing sim W rows = .ok (computeXrd sim rows) := by
  have hW0 : W ≠ 0 := Nat.one_le_iff_ne_zero.mp hW
  simp only [parallelComputing, arraySplitE, if_neg hW0, Except.map,
    computeXrd_flatten, arraySplit_join]

/-- Claim C2: for every input sequence of N ≥ 1 records, every slice count
S ≥ 1 and every worker count W ≥ 1, the concatenated pipeline output
(micro-chunk results recombined by chunk index within each macro-chunk,
macro-chunks flushed in submission order) carries exactly the input's
material ids in input order — the parallel fan-out/fan-in equals a
sequential map over the records. -/
theorem c2_order_preservation {P : Type} (sim : String → P) (S W : ℕ)
    (rows : List MPRow) (_hN : 1 ≤ rows.length) (hS : 1 ≤ S) (hW : 1 ≤ W) :
    pipelineOutput sim S W rows = .ok (computeXrd sim rows) ∧
    (computeXrd sim rows).map XrdOutRow.material_id = rows.map MPRow.material_id := by
  have hS0 : S ≠ 0 := Nat.one_le_iff_ne_zero.mp hS
  constructor
  · simp only [pipelineOutput, arraySplitE, if_neg hS0, Except.bind]
    rw [mapM_ok_of _ (computeXrd sim) _ fun c _ => parallelComputing_ok sim W hW c]
    simp only [Except.map, computeXrd_flatten, arraySplit_join]
  · simp [computeXrd, List.map_map, Function.comp_def]

theorem c2_order_preservation_witness :
    pipelineOutput (fun _ => ()) 2 2 [mpRowOf 1, mpRowOf 2, mpRowOf 3] =
      .ok (computeXrd (fun _ => ()) [mpRowOf 1, mpRowOf 2, mpRowOf 3]) ∧
    (computeXrd (fun _ => ()) [mpRowOf 1, mpRowOf 2, mpRowOf 3]).map XrdOutRow.material_id =
      [mpRowOf 1, mpRowOf 2, mpRowOf 3].map MPRow.material_id :=
  c2_order_preservation (fun _ => ()) 2 2 _ (by decide) (by decide) (by decide)

/-- Counterexample to claim C6 as stated: on a machine reporting 4 cpus the
worker count is 2, and 5 input records give a slice count of
5 / (20·2) = 0, on which `np.array_split` fails with the
invalid-section-count `ValueError`. -/
theorem c6_clamping_counterexample :
    ¬ c6Stated ∧
    nworkersOf 4 = 2 ∧
    nSlicesOf (List.replicate 5 mpRow0).length (nworkersOf 4) = 0 ∧
    arraySplitE (nSlicesOf (List.replicate 5 mpRow0).length (nworkersOf 4))
        (List.replicate 5 mpRow0) =
      .error "number sections must be larger than 0" := by
  refine ⟨fun h => ?_, rfl, rfl, rfl⟩
  have h1 := (h 4 (List.replicate 5 mpRow0)).2.1
  simp [nSlicesOf, nworkersOf] at h1

/-- Claim C6, amended: the worker count is clamped to ≥ 1, but the slice
count `N / (20·W)` is not — it is 0 whenever N < 20·W and macro-chunk
splitting then fails with the invalid-section-count error; when the slice
count is ≥ 1 splitting succeeds and loses no records, and micro-chunk
splitting with any W ≥ 1 (even W exceeding the record count, which yields
empty chunks) succeeds with the empty chunks contributing empty outputs. -/
theorem c6_clamping_amended {P : Type} (sim : String → P) (cpu : ℕ) (rows : List MPRow) :
    1 ≤ nworkersOf cpu ∧
    (rows.length < 20 * nworkersOf cpu →
      arraySplitE (nSlicesOf rows.length (nworkersOf cpu)) rows =
        .error "number sections must be larger than 0") ∧
    (1 ≤ nSlicesOf rows.length (nworkersOf cpu) →
      ∃ chunks, arraySplitE (nSlicesOf rows.length (nworkersOf cpu)) rows = .ok chunks ∧
        chunks.flatten = rows) ∧
    (∀ W, 1 ≤ W → ∃ micro, arraySplitE W rows = .ok micro ∧
      (micro.map (computeXrd sim)).flatten = computeXrd sim rows) := by
  refine ⟨le_max_right _ _, fun hlt => ?_, fun hge => ?_, fun W hW => ?_⟩
  · have h0 : nSlicesOf rows.length (nworkersOf cpu) = 0 := Nat.div_eq_of_lt hlt
    rw [h0]; rfl
  · have h0 : nSlicesOf rows.length (nworkersOf cpu) ≠ 0 := Nat.one_le_iff_ne_zero.mp hge
    exact ⟨_, by rw [arraySplitE, if_neg h0], arraySplit_join _ _⟩
  · have h0 : W ≠ 0 := Nat.one_le_iff_ne_zero.mp hW
    exact ⟨_, by rw [arraySplitE, if_neg h0], by
      rw [computeXrd_flatten, arraySplit_join]⟩

theorem c6_clamping_amended_witness :
    (arraySplitE (nSlicesOf (List.replicate 5 mpRow0).length (nworkersOf 4))
        (List.replicate 5 mpRow0) =
      .error "number sections must be larger than 0") ∧
    (∃ chunks,
      arraySplitE (nSlicesOf (List.replicate 40 mpRow0).length (nworkersOf 4))
          (List.replicate 40 mpRow0) = .ok chunks ∧
        chunks.flatten = List.replicate 40 mpRow0) ∧
    (∃ micro, arraySplitE 3 (List.replicate 2 mpRow0) = .ok micro ∧
      (micro.map (computeXrd (fun _ => ()))).flatten =
        computeXrd (fun _ => ()) (List.replicate 2 mpRow0)) :=
  ⟨(c6_clamping_amended (fun _ => ()) 4 (List.replicate 5 mpRow0)).2.1 (by decide),
   (c6_clamping_amended (fun _ => ()) 4 (List.replicate 40 mpRow0)).2.2.1 (by decide),
   (c6_clamping_amended (fun _ => ()) 4 (List.replicate 2 mpRow0)).2.2.2 3 (by decide)⟩

/-! ## Incremental file lemmas -/

theorem foldl_flushChunk {P : Type} :
    ∀ (l : List (List (XrdOutRow P))) (init : List (CsvLine P)),
      l.foldl flushChunk init = init ++ (l.map (List.map CsvLine.dataLine)).flatten
  | [], init => by simp
  | a :: l, init => by
    simp only [List.foldl_cons, foldl_flushChunk l, flushChunk, List.map_cons,
      List.flatten_cons, List.append_assoc]

theorem fileAfter_eq {P : Type} (results : List (List (XrdOutRow P))) :
    fileAfter results =
      CsvLine.headerLine :: (results.map (List.map CsvLine.dataLine)).flatten := by
  rw [fileAfter, foldl_flushChunk]; rfl

/-- Claim C7: the intermediate artifact is written incrementally — the
header row is written exactly once, before any data row; each macro-chunk
flush only appends data rows after the existing contents (previously
written rows are never modified), and the file never contains a header row
after a data row. -/
theorem c7_incremental_append {P : Type} (results : List (List (XrdOutRow P))) :
    (∀ k, ∃ tail, fileAfter (results.take (k + 1)) = fileAfter (results.take k) ++ tail ∧
        ∀ l ∈ tail, l ≠ CsvLine.headerLine) ∧
    (∃ ds, fileAfter results = CsvLine.headerLine :: ds ∧
        ∀ l ∈ ds, l ≠ CsvLine.headerLine) := by
  constructor
  · intro k
    refine ⟨((results[k]?.toList).map (List.map CsvLine.dataLine)).flatten, ?_, ?_⟩
    · rw [fileAfter_eq, fileAfter_eq, List.take_succ, List.map_append, List.flatten_append]
      rfl
    · intro l hl
      simp only [List.mem_flatten, List.mem_map] at hl
      obtain ⟨_, ⟨_, _, rfl⟩, hmem⟩ := hl
      obtain ⟨_, _, rfl⟩ := List.mem_map.mp hmem
      exact fun h => CsvLine.noConfusion h
  · refine ⟨(results.map (List.map CsvLine.dataLine)).flatten, fileAfter_eq results, ?_⟩
    intro l hl
    simp only [List.mem_flatten, List.mem_map] at hl
    obtain ⟨_, ⟨_, _, rfl⟩, hmem⟩ := hl
    obtain ⟨_, _, rfl⟩ := List.mem_map.mp hmem
    exact fun h => CsvLine.noConfusion h

/-- Claim C8: the `Normalizer.denorm` of `main.py` returns
`t + std + mean` while `norm` returns `(t - mean) / std`; consequently
`denorm` is not the inverse of `norm`: no state `(mean, std)` makes
`denorm ∘ norm` the identity, and e.g. with mean 0, std 1 the roundtrip of
0 is 1. -/
theorem c8_normalizer_denorm_mismatch :
    (∀ (nz : Normalizer) (t : ℚ), nz.denorm t = t + nz.std + nz.mean) ∧
    (∀ (nz : Normalizer) (t : ℚ), nz.norm t = (t - nz.mean) / nz.std) ∧
    (∀ nz : Normalizer, ¬ ∀ t : ℚ, nz.denorm (nz.norm t) = t) ∧
    (∃ (nz : Normalizer) (t : ℚ), nz.std ≠ 0 ∧ nz.denorm (nz.norm t) ≠ t) := by
  refine ⟨fun nz t => rfl, fun nz t => rfl, fun nz h => ?_,
    ⟨⟨0, 1⟩, 0, one_ne_zero, by norm_num [Normalizer.norm, Normalizer.denorm]⟩⟩
  have h1 := h nz.mean
  have h2 := h (nz.mean + 1)
  simp only [Normalizer.norm, Normalizer.denorm, sub_self, zero_div] at h1 h2
  have hs : nz.std = 0 := by linarith
  rw [hs, div_zero] at h2
  linarith

/-- Claim C10: when the intermediate output file already exists,
`compute_xrd.py`'s `main` prints a warning but then unconditionally
truncates the file in overwrite mode and rewrites it from scratch — no
confirmation, no error, and the computation result is entirely independent
of the prior file contents, which are lost before any new data is
computed. -/
theorem c10_unconditional_truncate {P : Type} (sim : String → P) (cpu : ℕ)
    (priorFile : Option (List (CsvLine P))) (records : List MPRow) :
    (computeXrdMain sim cpu priorFile records).1 = priorFile.isSome ∧
    (computeXrdMain sim cpu priorFile records).2 =
      (computeXrdMain sim cpu none records).2 :=
  ⟨rfl, rfl⟩

theorem canonRow_wf (id : String) (a0 a1 : List ℚ) (h0 : a0.length = 94)
    (h1 : a1.length = 94) : WFRow (canonRow id a0 a1) := by
  refine ⟨by simp [canonRow], by simp [canonRow], ?_, ?_⟩
  · intro s hs
    simp only [canonRow, List.mem_replicate] at hs
    rw [hs.2]
    rfl
  · intro a ha
    simp only [canonRow, List.mem_cons, List.mem_replicate] at ha
    rcases ha with rfl | ha
    · exact h0
    · rw [ha.2]
      exact h1

theorem canonRow_hkl (id : String) (a0 a1 : List ℚ) :
    (canonRow id a0 a1).hkl.length = 512 := by simp [canonRow]

theorem maxMaxAff_canon (a0 a1 : List ℚ)
    (hfix : (if pyListLtB a0 a1 then a1 else a0) = a0) :
    maxMaxAff (a0 :: List.replicate 511 a1) = pyMax a0 := by
  simp only [maxMaxAff, pyMaxRow]
  rw [foldl_fix (fun x y => if pyListLtB x y then y else x) a0 a1 hfix 511]
  rfl

theorem divisorOf_rowCex : divisorOf rowCex = 3 := by
  rw [divisorOf,
    show rowCex.atomic_form_factor = affCexA :: List.replicate 511 affCexB from rfl,
    maxMaxAff_canon affCexA affCexB (by decide)]
  decide

theorem divisorOf_canonW (id : String) : divisorOf (canonRow id affW affW) = 2 := by
  rw [divisorOf,
    show (canonRow id affW affW).atomic_form_factor = affW :: List.replicate 511 affW from
      rfl,
    maxMaxAff_canon affW affW (by decide)]
  decide

theorem pyMax_cons (x : ℚ) (xs : List ℚ) :
    pyMax (x :: xs) = some (xs.foldl (fun a b => if a < b then b else a) x) := rfl

theorem pyMax_structured (t B : List ℚ) (a3 m : ℚ) (n : ℕ)
    (h1 : List.foldl (fun a b => if a < b then b else a) a3 t = a3)
    (h2 : List.foldl (fun a b => if a < b then b else a) a3 B = m)
    (h3 : List.foldl (fun a b => if a < b then b else a) m B = m) :
    pyMax ((a3 :: t) ++ (List.replicate (n + 1) B).flatten) = some m := by
  rw [List.cons_append, pyMax_cons, List.foldl_append, h1, List.foldl_flatten,
    List.replicate_succ, List.foldl_cons]
  simp only [h2]
  rw [foldl_fix (fun b l => List.foldl (fun a c => if a < c then c else a) b l) m B h3 n]

theorem globalMaxFF_rowCex : globalMaxFF rowCex.atomic_form_factor = some 5 := by
  have h := pyMax_structured (List.replicate 92 0 ++ [2]) affCexB 3 5 510
    (by decide) (by decide) (by decide)
  exact h


theorem lookup_self_cons {b : Type} (k : String) (v : b) (l : List (String × b)) :
    List.lookup k ((k, v) :: l) = some v := by
  rw [List.lookup_cons]
  simp

/-- A successful iteration on a well-formed 512-reflection row produces
exactly the state computed by `processRow_wf`. -/
theorem processRow_ok_wf_eq {st : OutState} {row : XrdRow} {st2 : OutState}
    (hok : processRow st row = .ok st2) (hwf : WFRow row) (hn : row.hkl.length = 512) :
    st2 = { featuresDir := (filenameOf row, tensorOf row) :: st.featuresDir
            targetDir := (filenameOf row, [row.band_gap, row.energy_per_atom,
              row.formation_energy_per_atom]) :: st.targetDir } := by
  have hdup : st.featuresDir.lookup (filenameOf row) = none := by
    cases hd : st.featuresDir.lookup (filenameOf row) with
    | none => rfl
    | some x =>
        rw [processRow_duplicate (by rw [hd]; rfl)] at hok
        exact Except.noConfusion hok
  rw [processRow_wf st row hdup hwf hn] at hok
  exact (Except.ok.inj hok).symm

/-- Counterexample to claim C1 as stated: the zero-reflection material
(0 ≠ 512 reflections) fails, but with the `IndexError` of
`features.iloc[:, 0]` on an empty frame (line 42), not with the shape
error of the line 46-47 asserts. -/
theorem c1_shape_counterexample :
    ¬ c1Stated ∧ processRow emptyState rowEmpty = .error .indexError := by
  constructor
  · intro h
    have h2 := h.2 emptyState rowEmpty rfl (by decide)
    rw [show processRow emptyState rowEmpty = .error .indexError from rfl] at h2
    exact GenError.noConfusion (Except.error.inj h2)
  · rfl

/-- Claim C1, amended: every sample the encoder actually produces has
exactly 97 channels and 512 points (checked by the asserts before any
write), and a consistently-shaped pattern with at least one but not
exactly 512 reflections fails with the fatal shape error rather than being
padded or truncated; a zero-reflection pattern also fails fatally, but
with an index error in the normalization step, before the shape asserts
are reached. -/
theorem c1_shape_invariant_amended :
    (∀ (st : OutState) (row : XrdRow) (st2 : OutState),
      processRow st row = .ok st2 →
      ∃ t, st2.featuresDir.lookup (filenameOf row) = some t ∧
        t.length = 97 ∧ ∀ c ∈ t, c.length = 512) ∧
    (∀ (st : OutState) (row : XrdRow),
      st.featuresDir.lookup (filenameOf row) = none → WFRow row →
      1 ≤ row.hkl.length → row.hkl.length ≠ 512 →
      processRow st row = .error .shapeError) :=
  ⟨fun _ _ _ h => processRow_ok_shape h,
   fun st row hdup hwf hpos hne => processRow_shapeError st row hdup hwf hpos hne⟩

theorem c1_shape_invariant_amended_witness :
    (∃ st2, processRow emptyState rowW1 = .ok st2 ∧
      ∃ t, st2.featuresDir.lookup (filenameOf rowW1) = some t ∧
        t.length = 97 ∧ ∀ c ∈ t, c.length = 512) ∧
    processRow emptyState rowSmall = .error .shapeError := by
  constructor
  · have hok := processRow_wf emptyState rowW1 rfl
      (canonRow_wf _ _ _ (by decide) (by decide)) (canonRow_hkl _ _ _)
    exact ⟨_, hok, c1_shape_invariant_amended.1 emptyState rowW1 _ hok⟩
  · exact c1_shape_invariant_amended.2 emptyState rowSmall rfl
      ⟨by decide, by decide, by decide, by decide⟩ (by decide) (by decide)

/-- Counterexample to claim C3 as stated: for the material `rowCex`, the
divided form-factor channel 4 of reflection 1 holds 5 / 3 — divided by
`max(max(aff))` = 3 (the top entry of the lexicographically greatest row),
not by the pattern-wide maximum 5 as the claim requires (which would give
5 / 5 = 1).  Channel 96 is not divided at all. -/
theorem c3_ff_divisor_counterexample : ¬ c3Stated := by
  intro h
  have hwf : WFRow rowCex := canonRow_wf _ _ _ (by decide) (by decide)
  have hn : rowCex.hkl.length = 512 := canonRow_hkl _ _ _
  have hok := processRow_wf emptyState rowCex rfl hwf hn
  have hc := h emptyState rowCex _ (tensorOf rowCex) 5 hok
    (lookup_self_cons _ _ _) globalMaxFF_rowCex 1 (by omega) 4 (by omega) (by omega)
  have hreal := tensorOf_cell_ff hwf hn (i := 1) (j := 4) (by omega) (by omega) (by omega)
  rw [hreal, divisorOf_rowCex,
    show (rowCex.atomic_form_factor.getD 1 []).getD (4 - 3) 0 = 5 from by decide] at hc
  have hvals := Option.some.inj hc
  norm_num at hvals

/-- Claim C3, amended: all form-factor channels except the last (channels
3 through 95) are divided by one shared scalar — `max(max(aff))`, the
largest entry of the lexicographically greatest form-factor row, which
need not equal the pattern-wide maximum — while the last form-factor
channel (channel 96) is left undivided. -/
theorem c3_ff_divisor_amended (st : OutState) (row : XrdRow) (st2 : OutState) (t : Tensor)
    (hok : processRow st row = .ok st2)
    (ht : st2.featuresDir.lookup (filenameOf row) = some t)
    (hwf : WFRow row) (hn : row.hkl.length = 512) :
    ∀ i, i < 512 →
      (∀ j, 3 ≤ j → j ≤ 95 →
        cell t j i =
          some ((row.atomic_form_factor.getD i []).getD (j - 3) 0 / divisorOf row)) ∧
      cell t 96 i = some ((row.atomic_form_factor.getD i []).getD 93 0) := by
  have hst2 := processRow_ok_wf_eq hok hwf hn
  subst hst2
  rw [lookup_self_cons] at ht
  have hteq := Option.some.inj ht
  subst hteq
  intro i hi
  exact ⟨fun j hj3 hj95 => tensorOf_cell_ff hwf hn hi hj3 hj95,
    tensorOf_cell_last hwf hn hi⟩

theorem c3_ff_divisor_amended_witness :
    cell (tensorOf rowW3) 3 0 =
      some ((rowW3.atomic_form_factor.getD 0 []).getD (3 - 3) 0 / divisorOf rowW3) ∧
    cell (tensorOf rowW3) 96 0 = some ((rowW3.atomic_form_factor.getD 0 []).getD 93 0) := by
  have hwf : WFRow rowW3 := canonRow_wf _ _ _ (by decide) (by decide)
  have hn : rowW3.hkl.length = 512 := canonRow_hkl _ _ _
  have h := c3_ff_divisor_amended emptyState rowW3 _ (tensorOf rowW3)
    (processRow_wf emptyState rowW3 rfl hwf hn) (lookup_self_cons _ _ _) hwf hn 0
    (by omega)
  exact ⟨h.1 3 (by omega) (by omega), h.2⟩

/-- Counterexample to claim C4 as stated: for `rowCex` (max_r = 1 ≠ 0,
pattern-wide maximum form factor 5 ≠ 0), the undivided last form-factor
channel of reflection 0 holds the raw value 2, outside [0, 1]. -/
theorem c4_normalization_counterexample : ¬ c4Stated := by
  intro h
  have hwf : WFRow rowCex := canonRow_wf _ _ _ (by decide) (by decide)
  have hn : rowCex.hkl.length = 512 := canonRow_hkl _ _ _
  have hok := processRow_wf emptyState rowCex rfl hwf hn
  have hc := (h emptyState rowCex _ (tensorOf rowCex) hok (lookup_self_cons _ _ _)
      (by decide)
      (fun g hg => by
        rw [globalMaxFF_rowCex] at hg
        rw [← Option.some.inj hg]
        decide)).2
    0 (by omega) 96 (by omega) (by omega)
  obtain ⟨v, hv, hv0, hv1⟩ := hc
  have hreal := tensorOf_cell_last hwf hn (i := 0) (by omega)
  rw [hreal,
    show (rowCex.atomic_form_factor.getD 0 []).getD 93 0 = 2 from by decide] at hv
  rw [← Option.some.inj hv] at hv1
  norm_num at hv1

/-- Claim C4, amended: when `max_r` is positive and bounds every radial
component from above (with radial components positive), the radial channel
lies in (0, 1]; the divided form-factor channels (3..95) lie in [0, 1]
provided the entries are non-negative and bounded by the code's divisor
`max(max(aff))` (which is positive) — a condition that can fail, since the
divisor need not be the pattern-wide maximum; the last form-factor channel
is written raw and satisfies no normalization bound. -/
theorem c4_normalization_bounds_amended (st : OutState) (row : XrdRow) (st2 : OutState)
    (t : Tensor)
    (hok : processRow st row = .ok st2)
    (ht : st2.featuresDir.lookup (filenameOf row) = some t)
    (hwf : WFRow row) (hn : row.hkl.length = 512)
    (hrad : ∀ s ∈ row.recip_spherical, 0 < s.getD 0 0 ∧ s.getD 0 0 ≤ row.max_r)
    (hffnn : ∀ a ∈ row.atomic_form_factor, ∀ x ∈ a, 0 ≤ x)
    (hffle : ∀ a ∈ row.atomic_form_factor, ∀ x ∈ a, x ≤ divisorOf row)
    (hdpos : 0 < divisorOf row) :
    (∀ i, i < 512 → ∃ v, cell t 0 i = some v ∧ 0 < v ∧ v ≤ 1) ∧
    (∀ i, i < 512 → ∀ j, 3 ≤ j → j ≤ 95 →
      ∃ v, cell t j i = some v ∧ 0 ≤ v ∧ v ≤ 1) ∧
    (∀ i, i < 512 → cell t 96 i = some ((row.atomic_form_factor.getD i []).getD 93 0)) := by
  have hst2 := processRow_ok_wf_eq hok hwf hn
  subst hst2
  rw [lookup_self_cons] at ht
  have hteq := Option.some.inj ht
  subst hteq
  refine ⟨?_, ?_, fun i hi => tensorOf_cell_last hwf hn hi⟩
  · intro i hi
    have h1 : i < row.recip_spherical.length := by rw [hwf.1, hn]; exact hi
    have hmem : row.recip_spherical.getD i [] ∈ row.recip_spherical := by
      rw [List.getD_eq_getElem _ _ h1]
      exact List.getElem_mem h1
    obtain ⟨hpos, hle⟩ := hrad _ hmem
    have hmr : 0 < row.max_r := lt_of_lt_of_le hpos hle
    exact ⟨_, tensorOf_cell_radial hwf hn hi, div_pos hpos hmr, (div_le_one hmr).mpr hle⟩
  · intro i hi j hj3 hj95
    have h2 : i < row.atomic_form_factor.length := by rw [hwf.2.1, hn]; exact hi
    have hmem : row.atomic_form_factor.getD i [] ∈ row.atomic_form_factor := by
      rw [List.getD_eq_getElem _ _ h2]
      exact List.getElem_mem h2
    have ha : (row.atomic_form_factor.getD i []).length = 94 := hwf.2.2.2 _ hmem
    have hjm : j - 3 < (row.atomic_form_factor.getD i []).length := by rw [ha]; omega
    have hxmem : (row.atomic_form_factor.getD i []).getD (j - 3) 0 ∈
        row.atomic_form_factor.getD i [] := by
      rw [List.getD_eq_getElem _ _ hjm]
      exact List.getElem_mem hjm
    exact ⟨_, tensorOf_cell_ff hwf hn hi hj3 hj95,
      div_nonneg (hffnn _ hmem _ hxmem) (le_of_lt hdpos),
      (div_le_one hdpos).mpr (hffle _ hmem _ hxmem)⟩

theorem c4_normalization_bounds_amended_witness :
    (∃ v, cell (tensorOf rowW4) 0 0 = some v ∧ 0 < v ∧ v ≤ 1) ∧
    (∃ v, cell (tensorOf rowW4) 4 0 = some v ∧ 0 ≤ v ∧ v ≤ 1) ∧
    cell (tensorOf rowW4) 96 0 = some ((rowW4.atomic_form_factor.getD 0 []).getD 93 0) := by
  have hwf : WFRow rowW4 := canonRow_wf _ _ _ (by decide) (by decide)
  have hn : rowW4.hkl.length = 512 := canonRow_hkl _ _ _
  have hd2 : divisorOf rowW4 = 2 := divisorOf_canonW "m-w4"
  have hrad : ∀ s ∈ rowW4.recip_spherical, 0 < s.getD 0 0 ∧ s.getD 0 0 ≤ rowW4.max_r := by
    intro s hs
    simp only [rowW4, canonRow, List.mem_replicate] at hs
    rw [hs.2]
    exact ⟨by norm_num, by decide⟩
  have hffnn : ∀ a ∈ rowW4.atomic_form_factor, ∀ x ∈ a, 0 ≤ x := by
    intro a ha
    simp only [rowW4, canonRow, List.mem_cons, List.mem_replicate] at ha
    have haw : a = affW := by
      rcases ha with h | h
      · exact h
      · exact h.2
    rw [haw]
    decide
  have hffle : ∀ a ∈ rowW4.atomic_form_factor, ∀ x ∈ a, x ≤ divisorOf rowW4 := by
    intro a ha
    simp only [rowW4, canonRow, List.mem_cons, List.mem_replicate] at ha
    have haw : a = affW := by
      rcases ha with h | h
      · exact h
      · exact h.2
    rw [haw, hd2]
    decide
  have h := c4_normalization_bounds_amended emptyState rowW4 _ (tensorOf rowW4)
    (processRow_wf emptyState rowW4 rfl hwf hn) (lookup_self_cons _ _ _) hwf hn
    hrad hffnn hffle (by rw [hd2]; norm_num)
  exact ⟨h.1 0 (by omega), h.2.1 0 (by omega) 4 (by omega) (by omega), h.2.2 0 (by omega)⟩

/-- Claim C5: persisting a sample whose id already has an artifact in the
current run's output directories (in a run-reachable state, i.e. one
satisfying `stateInv`: the features artifact of every persisted id is
written before its target artifact, and both directories start empty)
fails with the duplicate-artifact error and aborts the entire run: the
directories are returned exactly as they were — the pre-existing artifact
is not overwritten — and the duplicate sample is not silently skipped,
since the remaining rows are never processed and the error is reported. -/
theorem c5_duplicate_abort (st : OutState) (row : XrdRow) (rest : List XrdRow)
    (hinv : stateInv st)
    (hart : (st.featuresDir.lookup (filenameOf row)).isSome ∨
      (st.targetDir.lookup (filenameOf row)).isSome) :
    processRow st row = .error .duplicateMaterialId ∧
    runRows st (row :: rest) = (st, some .duplicateMaterialId) := by
  have hfeat : (st.featuresDir.lookup (filenameOf row)).isSome := hart.elim id (hinv _)
  refine ⟨processRow_duplicate hfeat, ?_⟩
  simp [runRows, processRow_duplicate hfeat]

theorem c5_duplicate_abort_witness :
    processRow dupState rowDup = .error .duplicateMaterialId ∧
    runRows dupState [rowDup] = (dupState, some .duplicateMaterialId) :=
  c5_duplicate_abort dupState rowDup []
    (fun f hf => by simp [dupState, List.lookup] at hf)
    (Or.inl (by
      rw [show dupState.featuresDir = [(filenameOf rowDup, dupTensor)] from rfl,
        lookup_self_cons]
      rfl))

/-- Claim C9: the duplicate check consults only the features directory.
For a well-formed sample whose id has a pre-existing artifact in the
target directory but none in the features directory, persistence succeeds
(no duplicate error) and the pre-existing target artifact is silently
overwritten with the new target values. -/
theorem c9_target_only_overwrite (st : OutState) (row : XrdRow)
    (hfeat : st.featuresDir.lookup (filenameOf row) = none)
    (_htgt : (st.targetDir.lookup (filenameOf row)).isSome)
    (hwf : WFRow row) (hn : row.hkl.length = 512) :
    ∃ st2, processRow st row = .ok st2 ∧
      st2.targetDir.lookup (filenameOf row) =
        some [row.band_gap, row.energy_per_atom, row.formation_energy_per_atom] ∧
      st2.featuresDir.lookup (filenameOf row) = some (tensorOf row) :=
  ⟨_, processRow_wf st row hfeat hwf hn, lookup_self_cons _ _ _, lookup_self_cons _ _ _⟩

theorem c9_target_only_overwrite_witness :
    ∃ st2, processRow tgtState rowW9 = .ok st2 ∧
      st2.targetDir.lookup (filenameOf rowW9) =
        some [rowW9.band_gap, rowW9.energy_per_atom, rowW9.formation_energy_per_atom] ∧
      st2.featuresDir.lookup (filenameOf rowW9) = some (tensorOf rowW9) :=
  c9_target_only_overwrite tgtState rowW9 rfl
    (by
      rw [show tgtState.targetDir = [(filenameOf rowW9, [9, 9, 9])] from rfl,
        lookup_self_cons]
      rfl)
    (canonRow_wf _ _ _ (by decide) (by decide)) (canonRow_hkl _ _ _)

theorem c7_incremental_append_witness :
    ∃ tail, fileAfter (([[xrdOutW]] : List (List (XrdOutRow Unit))).take (0 + 1)) =
      fileAfter (([[xrdOutW]] : List (List (XrdOutRow Unit))).take 0) ++ tail ∧
      ∀ l ∈ tail, l ≠ CsvLine.headerLine :=
  (c7_incremental_append [[xrdOutW]]).1 0

theorem c8_normalizer_denorm_mismatch_witness :
    Normalizer.denorm ⟨0, 1⟩ 0 = 0 + (1 : ℚ) + 0 ∧
    Normalizer.norm ⟨0, 1⟩ 0 = (0 - 0) / (1 : ℚ) :=
  ⟨c8_normalizer_denorm_mismatch.1 ⟨0, 1⟩ 0, c8_normalizer_denorm_mismatch.2.1 ⟨0, 1⟩ 0⟩

theorem c10_unconditional_truncate_witness :
    (computeXrdMain (fun _ => ()) 4 (some [CsvLine.headerLine]) []).1 =
      (some ([CsvLine.headerLine] : List (CsvLine Unit))).isSome ∧
    (computeXrdMain (fun _ => ()) 4 (some [CsvLine.headerLine]) []).2 =
      (computeXrdMain (fun _ => ()) 4 none []).2 :=
  c10_unconditional_truncate (fun _ => ()) 4 (some [CsvLine.headerLine]) []

end DeepKNet
